import Mathlib

/-!
Verification development for the ncc repository (src/run_firefox.py, src/config.py),
a scraper that discovers reward-campaign links in forum posts and visits them.

The Python source is shallowly embedded below:
  - URL strings are Lean String values; the relevant pieces of the Python
    standard library urllib.parse (urlsplit, urlparse, parse_qs, urljoin) are
    modelled on lists of characters, following the CPython implementation.
    Percent decoding and plus decoding in parse_qs, unicode normalization
    checks on netloc, and validation of bracketed IPv6 hosts are omitted;
    they do not affect any ASCII key or host used by the program.  A parse
    that raises ValueError in CPython (mismatched brackets in a netloc) is
    modelled as the value none.
  - Python sets of URL strings become Finset String.
  - External collaborators (HTTP fetch, the BeautifulSoup HTML parse, the
    Selenium driver) are parameters: functions returning Option values,
    where none models a raised exception that the source catches.
  - Side effects of a run (network fetches, marker file writes and deletes,
    the visited file write, the non-zero process exit) are recorded in an
    explicit effect trace.
  - Wall-clock times are integers (seconds); durations inside the dwell
    simulator are rationals.
-/

/-! ## Character list utilities -/

/-- Split a character list at the first occurrence of a character, like the
Python expression s.split(c, 1); none when the character does not occur. -/
def splitAtFirst (c : Char) : List Char → Option (List Char × List Char)
  | [] => none
  | x :: xs =>
    if x = c then some ([], xs)
    else (splitAtFirst c xs).map fun p => (x :: p.1, p.2)

/-- Split a character list on every occurrence of a character, like the
Python expression s.split(c); always returns at least one piece. -/
def splitOnChar (c : Char) : List Char → List (List Char)
  | [] => [[]]
  | x :: xs =>
    if x = c then [] :: splitOnChar c xs
    else
      match splitOnChar c xs with
      | [] => [[x]]
      | h :: t => (x :: h) :: t

/-- Substring test on character lists: does the needle occur contiguously in
the haystack, like the Python operator needle in hay. -/
def listContainsSub (needle : List Char) : List Char → Bool
  | [] => needle.isEmpty
  | x :: xs => needle.isPrefixOf (x :: xs) || listContainsSub needle xs

/-- Python operator needle in hay on strings. -/
def strContains (hay needle : String) : Bool :=
  listContainsSub needle.data hay.data

/-- Python str.lower restricted to ASCII letters (URLs in this program are
ASCII). -/
def strLower (s : String) : String :=
  ⟨s.data.map Char.toLower⟩

/-- Python str.strip with no argument: remove leading and trailing
whitespace. -/
def pyStrip (s : String) : String :=
  ⟨(((s.data.dropWhile Char.isWhitespace).reverse.dropWhile Char.isWhitespace).reverse)⟩

/-! ## Model of urllib.parse (the parts the program uses) -/

/-- Result of urlparse: scheme, netloc, path, params, query, fragment.
The urlsplit model leaves params empty. -/
structure UrlParts where
  scheme : String
  netloc : String
  path : String
  params : String
  query : String
  fragment : String
deriving DecidableEq, Repr

/-- Characters allowed in a URL scheme after the first letter. -/
def schemeChar (c : Char) : Bool :=
  c.isAlpha || c.isDigit || c = '+' || c = '-' || c = '.'

/-- Remove leading C0 control characters and spaces, as CPython urlsplit
does before parsing. -/
def lstripC0 (l : List Char) : List Char :=
  l.dropWhile fun c => c.toNat ≤ 0x20

/-- Extract a scheme prefix: the text before the first colon when it is
nonempty, starts with an ASCII letter and consists of scheme characters.
Returns the lowercased scheme and the remainder after the colon. -/
def splitScheme (l : List Char) : Option (List Char × List Char) :=
  match splitAtFirst ':' l with
  | none => none
  | some (pre, post) =>
    match pre with
    | [] => none
    | c0 :: _ =>
      if c0.isAlpha && pre.all schemeChar then some (pre.map Char.toLower, post)
      else none

/-- Split the netloc (the text after the two slashes, up to the first
slash, question mark or hash) from the rest, like CPython _splitnetloc.
The argument is the text after the two slashes. -/
def splitNetloc (l : List Char) : List Char × List Char :=
  (l.takeWhile fun c => !(c == '/' || c == '?' || c == '#'),
   l.dropWhile fun c => !(c == '/' || c == '?' || c == '#'))

/-- A netloc with an opening bracket and no closing one (or the reverse)
makes CPython urlsplit raise ValueError. -/
def bracketMismatch (nl : List Char) : Bool :=
  (nl.contains '[') != (nl.contains ']')

/-- Model of CPython urlsplit(url, defScheme).  Returns none where CPython
raises ValueError.  Steps, in CPython order: strip leading control
characters and spaces, drop tab and newline characters, take a scheme
prefix if present (else use the default), take the netloc after a double
slash, then split off the fragment and then the query. -/
def urlsplitM (url : String) (defScheme : String) : Option UrlParts :=
  let l0 := (lstripC0 url.data).filter fun c => !(c == '\t' || c == '\r' || c == '\n')
  let sr :=
    match splitScheme l0 with
    | none => (defScheme.data, l0)
    | some (s, r) => (s, r)
  let nr :=
    match sr.2 with
    | '/' :: '/' :: r => splitNetloc r
    | _ => ([], sr.2)
  if bracketMismatch nr.1 then none
  else
    let ff :=
      match splitAtFirst '#' nr.2 with
      | none => (nr.2, ([] : List Char))
      | some (a, b) => (a, b)
    let pq :=
      match splitAtFirst '?' ff.1 with
      | none => (ff.1, ([] : List Char))
      | some (a, b) => (a, b)
    some ⟨⟨sr.1⟩, ⟨nr.1⟩, ⟨pq.1⟩, "", ⟨pq.2⟩, ⟨ff.2⟩⟩

/-- Schemes for which urlparse splits params off the path (CPython
uses_params). -/
def uses_params : List String :=
  ["", "ftp", "hdl", "prospero", "http", "imap", "https", "shttp", "rtsp",
   "rtspu", "sip", "sips", "mms", "sftp", "tel"]

/-- CPython _splitparams: split the path at the first semicolon of its last
segment (or of the whole path when it has no slash). -/
def splitParams (p : List Char) : List Char × List Char :=
  if p.contains '/' then
    let seg := (p.reverse.takeWhile fun c => !(c == '/')).reverse
    let pre := (p.reverse.dropWhile fun c => !(c == '/')).reverse
    match splitAtFirst ';' seg with
    | none => (p, [])
    | some (a, b) => (pre ++ a, b)
  else
    match splitAtFirst ';' p with
    | none => (p, [])
    | some (a, b) => (a, b)

/-- Model of CPython urlparse(url, defScheme): urlsplit followed by the
params split. -/
def urlparseM (url : String) (defScheme : String) : Option UrlParts :=
  match urlsplitM url defScheme with
  | none => none
  | some sp =>
    if uses_params.contains sp.scheme && sp.path.data.contains ';' then
      let pp := splitParams sp.path.data
      some { sp with path := ⟨pp.1⟩, params := ⟨pp.2⟩ }
    else some sp

/-- Model of the test key in parse_qs(query): parse_qs keeps a key only
when some ampersand-separated field is key=value with a nonempty value
(keep_blank_values is false by default).  Percent and plus decoding are
omitted; the program only tests the ASCII key eventId. -/
def hasQueryKey (query key : String) : Bool :=
  (splitOnChar '&' query.data).any fun field =>
    match splitAtFirst '=' field with
    | none => false
    | some (name, value) => name == key.data && !value.isEmpty

/-- Schemes that allow relative joining (CPython uses_relative). -/
def uses_relative : List String :=
  ["", "ftp", "http", "gopher", "nntp", "imap", "wais", "file", "https",
   "shttp", "mms", "prospero", "rtsp", "rtspu", "sftp", "svn", "svn+ssh",
   "ws", "wss"]

/-- Schemes that use a network location (CPython uses_netloc). -/
def uses_netloc : List String :=
  ["", "ftp", "http", "gopher", "nntp", "telnet", "imap", "wais", "file",
   "mms", "https", "shttp", "snews", "prospero", "rtsp", "rtspu", "rsync",
   "svn", "svn+ssh", "sftp", "nfs", "git", "git+ssh", "ws", "wss",
   "itms-services"]

/-- Model of CPython urlunsplit. -/
def urlunsplit_model (scheme netloc path query fragment : String) : String :=
  let u1 :=
    if !(netloc == "") || path.startsWith "//" then
      "//" ++ netloc ++ (if !(path == "") && !(path.startsWith "/") then "/" ++ path else path)
    else path
  let u2 := if !(scheme == "") then scheme ++ ":" ++ u1 else u1
  let u3 := if !(query == "") then u2 ++ "?" ++ query else u2
  if !(fragment == "") then u3 ++ "#" ++ fragment else u3

/-- Model of CPython urlunparse. -/
def urlunparse_model (scheme netloc path params query fragment : String) : String :=
  let p := if !(params == "") then path ++ ";" ++ params else path
  urlunsplit_model scheme netloc p query fragment

/-- The in-place assignment segments[1:-1] = filter(None, segments[1:-1])
from CPython urljoin: drop empty segments other than the first and the
last. -/
def filterMiddleEmpties : List (List Char) → List (List Char)
  | [] => []
  | [x] => [x]
  | x :: rest => x :: ((rest.dropLast.filter fun s => !s.isEmpty) ++ [rest.getLastD []])

/-- The dot-segment resolution loop from CPython urljoin. -/
def resolveDots : List (List Char) → List (List Char) → List (List Char)
  | [], acc => acc
  | s :: rest, acc =>
    if s = ['.', '.'] then resolveDots rest acc.dropLast
    else if s = ['.'] then resolveDots rest acc
    else resolveDots rest (acc ++ [s])

/-- The body of CPython urljoin after both URLs parsed and the scheme test
passed: b is the parsed base, r the parsed relative URL (with the scheme
already defaulted to the base scheme). -/
def joinParsed (b r : UrlParts) : String :=
  if uses_netloc.contains r.scheme && !(r.netloc == "") then
    urlunparse_model r.scheme r.netloc r.path r.params r.query r.fragment
  else
    let netloc := if uses_netloc.contains r.scheme then b.netloc else r.netloc
    if r.path = "" ∧ r.params = "" then
      let query := if r.query = "" then b.query else r.query
      urlunparse_model r.scheme netloc b.path b.params query r.fragment
    else
      let baseParts := splitOnChar '/' b.path.data
      let bp := if (baseParts.getLastD []) = ([] : List Char) then baseParts else baseParts.dropLast
      let segs :=
        if r.path.startsWith "/" then splitOnChar '/' r.path.data
        else filterMiddleEmpties (bp ++ splitOnChar '/' r.path.data)
      let resolved := resolveDots segs []
      let resolved2 :=
        if (segs.getLastD []) = ['.'] ∨ (segs.getLastD []) = ['.', '.'] then resolved ++ [[]]
        else resolved
      let joined := List.intercalate ['/'] resolved2
      let pathStr := if joined = ([] : List Char) then "/" else ⟨joined⟩
      urlunparse_model r.scheme netloc pathStr r.params r.query r.fragment

/-- Model of CPython urljoin(base, url); none where a parse raises. -/
def urljoinM (base url : String) : Option String :=
  if base = "" then some url
  else if url = "" then some base
  else
    match urlparseM base "" with
    | none => none
    | some b =>
      match urlparseM url b.scheme with
      | none => none
      | some r =>
        if r.scheme = b.scheme ∧ uses_relative.contains r.scheme then
          some (joinParsed b r)
        else some url

/-! ## URL Normalizer: stage 4 of _extract_url_candidates
(src/run_firefox.py lines 482-500).  Stages 1-3 (anchor attributes,
onclick literals, visible-text regex) are the external HTML parse
collaborator; they enter the model as the raw candidate list. -/

/-- The resolution part of the per-candidate loop body: a candidate that
begins with a double slash gets the https scheme; a candidate with no
scheme is joined onto the base origin; anything else is untouched.  The
value none models an exception caught by the per-candidate handler. -/
def resolve_candidate (bscheme bnetloc : String) (c : String) : Option String :=
  if c.startsWith "//" then some ("https:" ++ c)
  else
    match urlparseM c "" with
    | none => none
    | some pc =>
      if pc.scheme = "" then urljoinM (bscheme ++ "://" ++ bnetloc ++ "/") c
      else some c

/-- The validity test of the per-candidate loop body: keep the resolved
value only when it parses with scheme http or https and a nonempty
netloc. -/
def keep_candidate (u : String) : Bool :=
  match urlparseM u "" with
  | none => false
  | some p => (p.scheme == "http" || p.scheme == "https") && !(p.netloc == "")

/-- One full iteration of the normalization loop: resolve, then keep or
drop. -/
def normalize_candidate (bscheme bnetloc : String) (c : String) : Option String :=
  match resolve_candidate bscheme bnetloc c with
  | none => none
  | some u => if keep_candidate u then some u else none

/-- Model of _extract_url_candidates restricted to its normalization stage:
the raw candidates (stage 1-3 output) are given as a list, and the set
built by the add loop is the set of successfully normalized values.  The
value none models the urlparse of the base URL raising outside the
per-candidate handler. -/
def _extract_url_candidates (cands : List String) (base_url : String) :
    Option (Finset String) :=
  match urlparseM base_url "" with
  | none => none
  | some bp => some ((cands.filterMap (normalize_candidate bp.scheme bp.netloc)).toFinset)

/-! ## Campaign Filter (_filter_campaign_urls, src/run_firefox.py
lines 502-527) -/

/-- First rule: the naver point-claim shape.  Host equals
campaign2.naver.com, the path contains the click-point segment, and
parse_qs of the query has the key eventId. -/
def pointClaimRule (p : UrlParts) : Bool :=
  p.netloc == "campaign2.naver.com" &&
    strContains p.path "/npay/v2/click-point/" &&
    hasQueryKey p.query "eventId"

/-- Second rule: the adison ad-partner shape. -/
def adPartnerRule (p : UrlParts) : Bool :=
  p.netloc == "ofw.adison.co" && strContains p.path "/u/naverpay/ads/"

/-- Third rule: generic naver campaigns.  Host contains naver and the
lowercased path contains one of the keywords point, campaign, event. -/
def genericNaverRule (p : UrlParts) : Bool :=
  strContains p.netloc "naver" &&
    (["point", "campaign", "event"].any fun k => strContains (strLower p.path) k)

/-- The loop body of _filter_campaign_urls for one URL: parse it (an
exception skips the URL) and test the three rules in order; the first two
end the iteration with continue on success, which makes the result the
disjunction of the three rules. -/
def is_campaign_url (url : String) : Bool :=
  match urlparseM url "" with
  | none => false
  | some p => pointClaimRule p || adPartnerRule p || genericNaverRule p

/-- Model of _filter_campaign_urls: the set built by adding every
candidate that some rule accepts. -/
def _filter_campaign_urls (urls : Finset String) : Finset String :=
  urls.filter fun u => is_campaign_url u = true

/-! ## Persisted state and the run pipeline
(src/run_firefox.py: _check_break_point, _create_break_point,
_load_visited_urls, _save_visited_urls, campaign_scrap,
_collect_posts_from_sites, get_coin, post_scrap, main). -/

/-- Observable side effects of a run.  fetchSite, fetchPost and visitLink
are the network actions; deleteMarker and writeMarker act on the
break-point file; saveVisited writes the visited-urls file; exit1 is the
non-zero process exit taken at the gate. -/
inductive Effect where
  | fetchSite (url : String)
  | fetchPost (url : String)
  | visitLink (url : String)
  | deleteMarker
  | writeMarker (reason : String)
  | saveVisited (lines : List String)
  | exit1
deriving DecidableEq, Repr

/-- Does the effect write the break-point marker file. -/
def Effect.isWriteMarker : Effect → Bool
  | .writeMarker _ => true
  | _ => false

/-- Does the effect delete the break-point marker file. -/
def Effect.isDeleteMarker : Effect → Bool
  | .deleteMarker => true
  | _ => false

/-- Is the effect the non-zero gate exit. -/
def Effect.isExit : Effect → Bool
  | .exit1 => true
  | _ => false

/-- Is the effect a network action. -/
def Effect.isNetwork : Effect → Bool
  | .fetchSite _ => true
  | .fetchPost _ => true
  | .visitLink _ => true
  | _ => false

/-- Model of _create_break_point: writing the marker file with a free-text
reason (the timestamp line and the reason line).  This method has no call
site anywhere in src/run_firefox.py. -/
def _create_break_point (reason : String) : List Effect :=
  [Effect.writeMarker reason]

/-- Model of _load_visited_urls: the file is a list of lines (none when
absent or unreadable); the loaded set keeps each stripped line that is
nonempty. -/
def _load_visited_urls (file : Option (List String)) : Finset String :=
  match file with
  | none => ∅
  | some lines => ((lines.map pyStrip).filter fun s => !(s == "")).toFinset

/-- Model of _save_visited_urls: the written file has one line per visited
URL, in sorted order. -/
def _save_visited_urls (vs : Finset String) : List String :=
  vs.sort (· ≤ ·)

/-- Outcome of processing one account inside get_coin: driver creation
raised, _login_naver returned false, or login succeeded and the links were
visited (per-link failures are caught inside the visiting loop and only
affect the success counter). -/
inductive AccountOutcome where
  | createFail
  | loginFail
  | loginOk
deriving DecidableEq, Repr

/-- Effects of get_coin: nothing when there are no links; otherwise each
account with a successful login visits every campaign link in turn, and an
account whose driver creation or login fails is skipped.  No branch of
get_coin (or of anything it calls) writes the break-point marker. -/
def get_coin_effects (accounts : List (String × AccountOutcome)) (links : List String) :
    List Effect :=
  if links.isEmpty then []
  else
    accounts.foldl (fun acc a =>
      match a.2 with
      | AccountOutcome.createFail => acc
      | AccountOutcome.loginFail => acc
      | AccountOutcome.loginOk => acc ++ links.map Effect.visitLink) []

/-- One iteration of the campaign_scrap loop over a post URL.  The
accumulator holds the campaign-link set and the list of post URLs for
which requests.get was issued.  A post already in the visited set is
skipped before any fetch; a fetch failure (none body) or an extraction
failure is caught and skipped after the fetch. -/
def campaign_step (visited : Finset String) (pf : String → Option String)
    (rc : String → String → List String)
    (acc : Finset String × List String) (p : String) : Finset String × List String :=
  if p ∈ visited then acc
  else
    match pf p with
    | none => (acc.1, acc.2 ++ [p])
    | some body =>
      match _extract_url_candidates (rc body p) p with
      | none => (acc.1, acc.2 ++ [p])
      | some cs => (acc.1 ∪ _filter_campaign_urls cs, acc.2 ++ [p])

/-- Model of campaign_scrap over a list of post URLs (the iteration order
of the Python set; no result below depends on the order).  pf is the HTTP
fetch of a post body, rc the stage 1-3 raw candidate extraction. -/
def campaign_scrap_list (visited : Finset String) (pf : String → Option String)
    (rc : String → String → List String) (posts : List String) :
    Finset String × List String :=
  posts.foldl (campaign_step visited pf rc) (∅, [])

/-- One iteration of the _collect_posts_from_sites loop: a site whose
collection raised (none) is skipped, otherwise its posts are added. -/
def collect_step (siteFetch : String → Option (Finset String))
    (acc : Finset String) (s : String) : Finset String :=
  match siteFetch s with
  | none => acc
  | some ps => acc ∪ ps

/-- Model of _collect_posts_from_sites: union of the per-site results over
the configured site list, skipping failed sites. -/
def _collect_posts_from_sites (siteFetch : String → Option (Finset String))
    (sites : List String) : Finset String :=
  sites.foldl (collect_step siteFetch) ∅

/-- The external inputs of one run: the configured site list, the per-site
collection outcome, the per-post body fetch, the raw candidate extraction,
and the per-account outcomes. -/
structure ScraperEnv where
  sites : List String
  siteFetch : String → Option (Finset String)
  postFetch : String → Option String
  rawCands : String → String → List String
  accounts : List (String × AccountOutcome)

/-- The persistent state the run touches: the visited-urls file and the
in-memory visited set loaded from it. -/
structure ScrapState where
  visitedFile : Option (List String)
  visited_urls : Finset String
deriving DecidableEq

/-- Model of post_scrap: collect posts from all sites; when none were
collected, return early without touching the visited-urls file; otherwise
extract campaign links from the not-yet-visited posts, visit them through
get_coin when any were found, then replace the in-memory visited set with
the collected posts and write it out. -/
def post_scrap (env : ScraperEnv) (st : ScrapState) : ScrapState × List Effect :=
  let posts := _collect_posts_from_sites env.siteFetch env.sites
  let siteEffs := env.sites.map Effect.fetchSite
  if posts = ∅ then (st, siteEffs)
  else
    let pr := campaign_scrap_list st.visited_urls env.postFetch env.rawCands
      (posts.sort (· ≤ ·))
    let coinEffs :=
      if pr.1 = ∅ then [] else get_coin_effects env.accounts (pr.1.sort (· ≤ ·))
    let fileLines := _save_visited_urls posts
    (⟨some fileLines, posts⟩,
     siteEffs ++ pr.2.map Effect.fetchPost ++ coinEffs ++ [Effect.saveVisited fileLines])

/-- Model of one whole run as driven by main: the constructor runs
_check_break_point first (markerMtime is the modification time of the
break-point file, none when absent; now is the current time; delayHours is
config.DELAY_HOURS).  A marker younger than delayHours times 3600 seconds
exits with a non-zero status before anything else; an old enough marker is
deleted and the run proceeds; then the visited set is loaded from the file
and post_scrap runs.  The result is the marker state after the run, the
visited-urls file after the run, and the effect trace. -/
def scraper_run (markerMtime : Option Int) (now delayHours : Int)
    (file0 : Option (List String)) (env : ScraperEnv) :
    Option Int × Option (List String) × List Effect :=
  match markerMtime with
  | none =>
    let r := post_scrap env ⟨file0, _load_visited_urls file0⟩
    (none, r.1.visitedFile, r.2)
  | some m =>
    if now - m ≥ delayHours * 3600 then
      let r := post_scrap env ⟨file0, _load_visited_urls file0⟩
      (none, r.1.visitedFile, Effect.deleteMarker :: r.2)
    else
      (some m, file0, [Effect.exit1])

/-! ## Dwell Simulator timing (dwell_and_scroll, src/run_firefox.py
lines 168-202).  Wall-clock durations are modelled symbolically as
rationals: waitT is the time spent in the readiness wait of step 1,
scrollT the time spent measuring and scrolling, jitter the sample of
random.uniform(0.3, 0.8). -/

/-- The scrollable span computed by dwell_and_scroll: total content height
minus viewport height, clamped at zero. -/
def scrollable_height (total_height viewport_height : Int) : Int :=
  max 0 (total_height - viewport_height)

/-- Elapsed time from start_time up to the final-sleep computation: the
readiness wait always runs; the scroll sequence runs only when the
scrollable span is positive. -/
def dwell_pre_sleep (waitT scrollT : ℚ) (span : Int) : ℚ :=
  waitT + (if 0 < span then scrollT else 0)

/-- The final sleep of dwell_and_scroll: when time remains to the
minimum-dwell floor, sleep that remainder plus the jitter; otherwise do
not sleep. -/
def dwell_sleep_time (minSeconds elapsed jitter : ℚ) : ℚ :=
  if 0 < minSeconds - elapsed then (minSeconds - elapsed) + jitter else 0

/-- Total elapsed time of dwell_and_scroll measured from the start of
step 1: the pre-sleep elapsed time plus the final sleep. -/
def dwell_total_elapsed (minSeconds elapsed jitter : ℚ) : ℚ :=
  elapsed + dwell_sleep_time minSeconds elapsed jitter

/-! ## Helper lemmas -/

/-- A map whose function fixes every member of the list is the identity on
that list. -/
theorem map_self_of_mem {α : Type} {l : List α} {f : α → α}
    (h : ∀ x ∈ l, f x = x) : l.map f = l := by
  induction l with
  | nil => rfl
  | cons a t ih =>
    simp only [List.map_cons, h a (by simp)]
    rw [ih fun x hx => h x (by simp [hx])]

/-- Success of one normalization iteration is resolution success together
with the validity test on the resolved value. -/
theorem normalize_candidate_eq_some (bs bn c u : String) :
    normalize_candidate bs bn c = some u ↔
      resolve_candidate bs bn c = some u ∧ keep_candidate u = true := by
  unfold normalize_candidate
  cases h : resolve_candidate bs bn c with
  | none => simp
  | some v =>
    by_cases hk : keep_candidate v = true
    · simp only [hk, if_true, Option.some_inj]
      constructor
      · rintro rfl; exact ⟨rfl, hk⟩
      · rintro ⟨hv, _⟩; exact hv
    · simp only [if_neg hk, Option.some_inj]
      constructor
      · intro hfalse; exact absurd hfalse (by simp)
      · rintro ⟨hv, hku⟩
        cases hv
        exact absurd hku hk

/-- A visited post leaves the campaign_scrap accumulator untouched. -/
theorem campaign_step_visited {visited : Finset String} {pf : String → Option String}
    {rc : String → String → List String} {acc : Finset String × List String}
    {p : String} (h : p ∈ visited) :
    campaign_step visited pf rc acc p = acc := by
  simp [campaign_step, h]

/-- The trace component of one campaign_scrap iteration is the old trace,
possibly extended by the post itself; the link component ignores the
trace. -/
theorem campaign_step_fst (visited : Finset String) (pf : String → Option String)
    (rc : String → String → List String) (a : Finset String) (t1 t2 : List String)
    (p : String) :
    (campaign_step visited pf rc (a, t1) p).1 = (campaign_step visited pf rc (a, t2) p).1 := by
  unfold campaign_step
  by_cases h : p ∈ visited
  · simp [h]
  · simp only [if_neg h]
    cases hpf : pf p with
    | none => rfl
    | some body =>
      dsimp only
      cases hex : _extract_url_candidates (rc body p) p with
      | none => rfl
      | some cs => rfl

/-- The campaign-link component of the fold does not depend on the trace
component of the accumulator. -/
theorem foldl_campaign_fst (visited : Finset String) (pf : String → Option String)
    (rc : String → String → List String) (posts : List String)
    (a : Finset String) (t1 t2 : List String) :
    (posts.foldl (campaign_step visited pf rc) (a, t1)).1 =
      (posts.foldl (campaign_step visited pf rc) (a, t2)).1 := by
  induction posts generalizing a t1 t2 with
  | nil => rfl
  | cons p rest ih =>
    simp only [List.foldl_cons]
    have hstep := campaign_step_fst visited pf rc a t1 t2 p
    rcases h1 : campaign_step visited pf rc (a, t1) p with ⟨a1, u1⟩
    rcases h2 : campaign_step visited pf rc (a, t2) p with ⟨a2, u2⟩
    rw [h1, h2] at hstep
    cases hstep
    exact ih a1 u1 u2

/-- Folding campaign_step over a post list equals folding it over the list
with the already-visited posts removed. -/
theorem foldl_campaign_filter (visited : Finset String) (pf : String → Option String)
    (rc : String → String → List String) (posts : List String)
    (acc : Finset String × List String) :
    posts.foldl (campaign_step visited pf rc) acc =
      (posts.filter fun p => !decide (p ∈ visited)).foldl (campaign_step visited pf rc) acc := by
  induction posts generalizing acc with
  | nil => rfl
  | cons p rest ih =>
    by_cases h : p ∈ visited
    · rw [List.foldl_cons, campaign_step_visited h, List.filter_cons, if_neg (by simp [h])]
      exact ih acc
    · rw [List.foldl_cons, List.filter_cons, if_pos (by simp [h]), List.foldl_cons]
      exact ih _

/-- Every post in the fetch trace of the fold is outside the visited set,
provided the accumulator trace already is. -/
theorem foldl_campaign_trace (visited : Finset String) (pf : String → Option String)
    (rc : String → String → List String) (posts : List String)
    (acc : Finset String × List String)
    (hacc : (acc.2.all fun q => !decide (q ∈ visited)) = true) :
    (((posts.foldl (campaign_step visited pf rc) acc).2).all
      fun q => !decide (q ∈ visited)) = true := by
  induction posts generalizing acc with
  | nil => exact hacc
  | cons p rest ih =>
    rw [List.foldl_cons]
    apply ih
    have happ : (((acc.2 ++ [p]).all fun q => !decide (q ∈ visited)) = true) ∨ p ∈ visited := by
      by_cases h : p ∈ visited
      · exact Or.inr h
      · refine Or.inl ?_
        rw [List.all_eq_true] at hacc ⊢
        intro x hx
        rcases List.mem_append.mp hx with hx | hx
        · exact hacc x hx
        · simp only [List.mem_singleton] at hx
          subst hx
          simp [h]
    unfold campaign_step
    by_cases h : p ∈ visited
    · simpa [h] using hacc
    · rcases happ with happ | happ
      · simp only [if_neg h]
        cases hpf : pf p with
        | none => exact happ
        | some body =>
          dsimp only
          cases hex : _extract_url_candidates (rc body p) p with
          | none => exact happ
          | some cs => exact happ
      · exact absurd happ h

/-- A post whose fetch fails contributes nothing to the campaign-link
component of the fold: removing it from the post list leaves that
component unchanged. -/
theorem foldl_campaign_drop_failed (visited : Finset String) (pf : String → Option String)
    (rc : String → String → List String) (p : String) (hp : pf p = none)
    (posts : List String) (acc : Finset String × List String) :
    (posts.foldl (campaign_step visited pf rc) acc).1 =
      ((posts.filter fun q => !(q == p)).foldl (campaign_step visited pf rc) acc).1 := by
  induction posts generalizing acc with
  | nil => rfl
  | cons q rest ih =>
    by_cases h : q = p
    · subst h
      rw [List.foldl_cons, List.filter_cons, if_neg (by simp)]
      rw [← ih acc]
      have hfst : (campaign_step visited pf rc acc q).1 = acc.1 := by
        unfold campaign_step
        by_cases hv : q ∈ visited
        · simp [hv]
        · simp [hv, hp]
      rcases hs : campaign_step visited pf rc acc q with ⟨a1, t1⟩
      rw [hs] at hfst
      rcases acc with ⟨a0, t0⟩
      cases hfst
      exact foldl_campaign_fst visited pf rc rest a1 t1 t0
    · rw [List.foldl_cons, List.filter_cons, if_pos (by simp [h]), List.foldl_cons]
      exact ih _

/-- A site whose collection fails contributes nothing to the collected
post set: removing it from the site list leaves the fold unchanged. -/
theorem foldl_collect_drop_failed (siteFetch : String → Option (Finset String))
    (s : String) (hs : siteFetch s = none) (sites : List String) (acc : Finset String) :
    sites.foldl (collect_step siteFetch) acc =
      (sites.filter fun t => !(t == s)).foldl (collect_step siteFetch) acc := by
  induction sites generalizing acc with
  | nil => rfl
  | cons t rest ih =>
    by_cases h : t = s
    · subst h
      rw [List.foldl_cons, List.filter_cons, if_neg (by simp)]
      have hstep : collect_step siteFetch acc t = acc := by simp [collect_step, hs]
      rw [hstep]
      exact ih acc
    · rw [List.foldl_cons, List.filter_cons, if_pos (by simp [h]), List.foldl_cons]
      exact ih _

/-- Every effect emitted by get_coin is a link visit. -/
theorem mem_get_coin_effects (accounts : List (String × AccountOutcome))
    (links : List String) (e : Effect) (he : e ∈ get_coin_effects accounts links) :
    ∃ u, e = Effect.visitLink u := by
  unfold get_coin_effects at he
  by_cases hl : links.isEmpty
  · rw [if_pos hl] at he
    exact absurd he (by simp)
  · rw [if_neg hl] at he
    suffices haux : ∀ (acs : List (String × AccountOutcome)) (acc : List Effect),
        (∀ x ∈ acc, ∃ u, x = Effect.visitLink u) →
        ∀ x ∈ acs.foldl (fun acc a =>
          match a.2 with
          | AccountOutcome.createFail => acc
          | AccountOutcome.loginFail => acc
          | AccountOutcome.loginOk => acc ++ links.map Effect.visitLink) acc,
          ∃ u, x = Effect.visitLink u by
      exact haux accounts [] (by simp) e he
    intro acs
    induction acs with
    | nil => intro acc hinv x hx; exact hinv x hx
    | cons a rest ih =>
      intro acc hinv x hx
      rw [List.foldl_cons] at hx
      rcases a with ⟨name, outcome⟩
      cases outcome with
      | createFail => exact ih acc hinv x hx
      | loginFail => exact ih acc hinv x hx
      | loginOk =>
        refine ih _ ?_ x hx
        intro y hy
        rcases List.mem_append.mp hy with hy | hy
        · exact hinv y hy
        · rcases List.mem_map.mp hy with ⟨u, _, hu⟩
          exact ⟨u, hu.symm⟩

/-- Every effect emitted by post_scrap is a site fetch, a post fetch, a
link visit, or the visited-file write; in particular post_scrap never
touches the break-point marker and never exits. -/
theorem mem_post_scrap_effects (env : ScraperEnv) (st : ScrapState) (e : Effect)
    (he : e ∈ (post_scrap env st).2) :
    (∃ u, e = Effect.fetchSite u) ∨ (∃ u, e = Effect.fetchPost u) ∨
    (∃ u, e = Effect.visitLink u) ∨ (∃ ls, e = Effect.saveVisited ls) := by
  unfold post_scrap at he
  by_cases hp : _collect_posts_from_sites env.siteFetch env.sites = ∅
  · rw [if_pos hp] at he
    simp only at he
    rcases List.mem_map.mp he with ⟨u, _, hu⟩
    exact Or.inl ⟨u, hu.symm⟩
  · rw [if_neg hp] at he
    simp only [List.mem_append] at he
    rcases he with ((he | he) | he) | he
    · rcases List.mem_map.mp he with ⟨u, _, hu⟩
      exact Or.inl ⟨u, hu.symm⟩
    · rcases List.mem_map.mp he with ⟨u, _, hu⟩
      exact Or.inr (Or.inl ⟨u, hu.symm⟩)
    · by_cases hl : (campaign_scrap_list st.visited_urls env.postFetch env.rawCands
          ((_collect_posts_from_sites env.siteFetch env.sites).sort (· ≤ ·))).1 = ∅
      · rw [if_pos hl] at he
        exact absurd he (by simp)
      · rw [if_neg hl] at he
        rcases mem_get_coin_effects _ _ e he with ⟨u, hu⟩
        exact Or.inr (Or.inr (Or.inl ⟨u, hu⟩))
    · simp only [List.mem_singleton] at he
      exact Or.inr (Or.inr (Or.inr ⟨_, he⟩))

/-- post_scrap emits no marker delete, no marker write, and no gate
exit. -/
theorem post_scrap_countP_zero (env : ScraperEnv) (st : ScrapState) :
    (post_scrap env st).2.countP Effect.isDeleteMarker = 0 ∧
    (post_scrap env st).2.countP Effect.isExit = 0 ∧
    (post_scrap env st).2.countP Effect.isWriteMarker = 0 := by
  refine ⟨?_, ?_, ?_⟩ <;>
    · rw [List.countP_eq_zero]
      intro e he
      rcases mem_post_scrap_effects env st e he with ⟨u, rfl⟩ | ⟨u, rfl⟩ | ⟨u, rfl⟩ | ⟨ls, rfl⟩ <;>
        simp [Effect.isDeleteMarker, Effect.isExit, Effect.isWriteMarker]

/-! ## Claims -/

/-- C1 counterexample: the claim says the click-point URL without the
eventId parameter is not classified as a campaign URL, but
_filter_campaign_urls keeps it (the generic naver keyword rule matches:
the host contains naver and the path contains point). -/
theorem c1_counterexample :
    "https://campaign2.naver.com/npay/v2/click-point/abc" ∈
      _filter_campaign_urls {"https://campaign2.naver.com/npay/v2/click-point/abc"} := by
  decide

/-- C1 (amended): for every input URL set, the Campaign Filter classifies
the click-point URL with eventId=1 as a campaign URL; the same URL without
the eventId parameter fails the point-claim rule, yet it is still
classified as a campaign URL because the generic naver keyword rule
accepts it. -/
theorem c1_point_rule_and_generic (S : Finset String)
    (h1 : "https://campaign2.naver.com/npay/v2/click-point/abc?eventId=1" ∈ S)
    (h2 : "https://campaign2.naver.com/npay/v2/click-point/abc" ∈ S) :
    "https://campaign2.naver.com/npay/v2/click-point/abc?eventId=1" ∈
      _filter_campaign_urls S ∧
    "https://campaign2.naver.com/npay/v2/click-point/abc" ∈ _filter_campaign_urls S ∧
    ∃ p, urlparseM "https://campaign2.naver.com/npay/v2/click-point/abc" "" = some p ∧
      pointClaimRule p = false ∧ genericNaverRule p = true := by
  exact ⟨Finset.mem_filter.mpr ⟨h1, by decide⟩, Finset.mem_filter.mpr ⟨h2, by decide⟩,
    _, rfl, by decide, by decide⟩

/-- Witness for c1_point_rule_and_generic on the two-element set of the
two URLs from the claim. -/
theorem c1_witness :
    "https://campaign2.naver.com/npay/v2/click-point/abc?eventId=1" ∈
      _filter_campaign_urls {"https://campaign2.naver.com/npay/v2/click-point/abc?eventId=1",
        "https://campaign2.naver.com/npay/v2/click-point/abc"} ∧
    "https://campaign2.naver.com/npay/v2/click-point/abc" ∈
      _filter_campaign_urls {"https://campaign2.naver.com/npay/v2/click-point/abc?eventId=1",
        "https://campaign2.naver.com/npay/v2/click-point/abc"} ∧
    ∃ p, urlparseM "https://campaign2.naver.com/npay/v2/click-point/abc" "" = some p ∧
      pointClaimRule p = false ∧ genericNaverRule p = true :=
  c1_point_rule_and_generic
    {"https://campaign2.naver.com/npay/v2/click-point/abc?eventId=1",
     "https://campaign2.naver.com/npay/v2/click-point/abc"}
    (by decide) (by decide)

/-- C8: the Campaign Filter is idempotent; filtering an already-filtered
set returns the same set. -/
theorem c8_filter_idempotent (S : Finset String) :
    _filter_campaign_urls (_filter_campaign_urls S) = _filter_campaign_urls S := by
  unfold _filter_campaign_urls
  rw [Finset.filter_filter]
  simp

/-- C2: no execution path of a run writes the break-point marker: the
effect trace of scraper_run (which contains the Visit Orchestrator
get_coin and the Campaign Discoverer campaign_scrap) never contains a
writeMarker effect, although the marker-writing routine
_create_break_point exists and would emit exactly that effect.  The
claimed transition to the cooling-down state on a trigger event therefore
never happens: _create_break_point has no call site. -/
theorem c2_no_marker_write (markerMtime : Option Int) (now delayHours : Int)
    (file0 : Option (List String)) (env : ScraperEnv) :
    (scraper_run markerMtime now delayHours file0 env).2.2.countP Effect.isWriteMarker = 0 ∧
    _create_break_point "security detected" = [Effect.writeMarker "security detected"] := by
  constructor
  · cases markerMtime with
    | none =>
      exact (post_scrap_countP_zero env ⟨file0, _load_visited_urls file0⟩).2.2
    | some m =>
      by_cases hage : now - m ≥ delayHours * 3600
      · show ((if now - m ≥ delayHours * 3600 then _ else _ :
          Option Int × Option (List String) × List Effect)).2.2.countP _ = 0
        rw [if_pos hage]
        rw [List.countP_cons]
        have h0 := (post_scrap_countP_zero env ⟨file0, _load_visited_urls file0⟩).2.2
        simp [h0, Effect.isWriteMarker]
      · show ((if now - m ≥ delayHours * 3600 then _ else _ :
          Option Int × Option (List String) × List Effect)).2.2.countP _ = 0
        rw [if_neg hage]
        rfl
  · rfl

/-- C4: at the gate check at the top of a run, a marker strictly younger
than delayHours times 3600 seconds makes the run stop at once with the
non-zero exit and no other effect (in particular no network activity and
the marker and the visited file untouched); a marker at least that old is
deleted exactly once, no exit happens, and the trace continues with the
post_scrap effects of the run. -/
theorem c4_gate (m now delayHours : Int) (file0 : Option (List String)) (env : ScraperEnv) :
    (now - m < delayHours * 3600 →
      scraper_run (some m) now delayHours file0 env = (some m, file0, [Effect.exit1])) ∧
    (delayHours * 3600 ≤ now - m →
      (scraper_run (some m) now delayHours file0 env).1 = none ∧
      (scraper_run (some m) now delayHours file0 env).2.2.countP Effect.isDeleteMarker = 1 ∧
      (scraper_run (some m) now delayHours file0 env).2.2.countP Effect.isExit = 0 ∧
      (scraper_run (some m) now delayHours file0 env).2.2 =
        Effect.deleteMarker :: (post_scrap env ⟨file0, _load_visited_urls file0⟩).2) := by
  constructor
  · intro hyoung
    show (if now - m ≥ delayHours * 3600 then _ else _ :
      Option Int × Option (List String) × List Effect) = _
    rw [if_neg (not_le.mpr hyoung)]
  · intro hold
    have hif : scraper_run (some m) now delayHours file0 env =
        (none, (post_scrap env ⟨file0, _load_visited_urls file0⟩).1.visitedFile,
          Effect.deleteMarker :: (post_scrap env ⟨file0, _load_visited_urls file0⟩).2) := by
      show (if now - m ≥ delayHours * 3600 then _ else _ :
        Option Int × Option (List String) × List Effect) = _
      rw [if_pos hold]
    rw [hif]
    have h0 := post_scrap_countP_zero env ⟨file0, _load_visited_urls file0⟩
    refine ⟨rfl, ?_, ?_, rfl⟩
    · rw [List.countP_cons]
      simp [h0.1, Effect.isDeleteMarker]
    · rw [List.countP_cons]
      simp [h0.2.1, Effect.isExit]

/-- Witness for c4_gate: with marker time 0 and delayHours 48, the run at
time 100 (younger than 172800 seconds) exits, and the run at time 200000
(older) deletes the marker once and proceeds. -/
theorem c4_witness :
    scraper_run (some 0) 100 48 none
        ⟨["s1"], fun _ => none, fun _ => none, fun _ _ => [], []⟩ =
      (some 0, none, [Effect.exit1]) ∧
    ((scraper_run (some 0) 200000 48 none
        ⟨["s1"], fun _ => none, fun _ => none, fun _ _ => [], []⟩).1 = none ∧
      (scraper_run (some 0) 200000 48 none
        ⟨["s1"], fun _ => none, fun _ => none, fun _ _ => [], []⟩).2.2.countP
          Effect.isDeleteMarker = 1 ∧
      (scraper_run (some 0) 200000 48 none
        ⟨["s1"], fun _ => none, fun _ => none, fun _ _ => [], []⟩).2.2.countP
          Effect.isExit = 0 ∧
      (scraper_run (some 0) 200000 48 none
        ⟨["s1"], fun _ => none, fun _ => none, fun _ _ => [], []⟩).2.2 =
        Effect.deleteMarker ::
          (post_scrap ⟨["s1"], fun _ => none, fun _ => none, fun _ _ => [], []⟩
            ⟨none, _load_visited_urls none⟩).2) :=
  ⟨(c4_gate 0 100 48 none ⟨["s1"], fun _ => none, fun _ => none, fun _ _ => [], []⟩).1
      (by decide),
   (c4_gate 0 200000 48 none ⟨["s1"], fun _ => none, fun _ => none, fun _ _ => [], []⟩).2
      (by decide)⟩

/-- C3 counterexample: a run that collects no posts leaves the previously
persisted visited file in place instead of replacing it with the (empty)
collected set, so the persisted set after the run is not the set of posts
collected in that run. -/
theorem c3_counterexample :
    (scraper_run none 0 48 (some ["P0"])
        ⟨["s1"], fun _ => none, fun _ => none, fun _ _ => [], []⟩).2.1 = some ["P0"] ∧
    _collect_posts_from_sites (fun _ => none) ["s1"] = (∅ : Finset String) ∧
    _load_visited_urls (some ["P0"]) ≠ _collect_posts_from_sites (fun _ => none) ["s1"] := by
  decide

/-- C3 (amended): for every run that collects at least one post, the
persisted visited file at run end holds exactly the collected post set
(one sorted line per post), fully replacing the prior contents; when every
collected post URL is whitespace-clean and nonempty, loading the file back
yields exactly the collected set, whatever was persisted before.  A run
that collects no posts leaves the file untouched (see the frame theorem of
claim ten). -/
theorem c3_replace_nonempty (now delayHours : Int) (file0 : Option (List String))
    (env : ScraperEnv)
    (hne : _collect_posts_from_sites env.siteFetch env.sites ≠ ∅)
    (hclean : ∀ u ∈ _collect_posts_from_sites env.siteFetch env.sites,
      pyStrip u = u ∧ ¬(u = "")) :
    (scraper_run none now delayHours file0 env).2.1 =
      some (_save_visited_urls (_collect_posts_from_sites env.siteFetch env.sites)) ∧
    _load_visited_urls (scraper_run none now delayHours file0 env).2.1 =
      _collect_posts_from_sites env.siteFetch env.sites := by
  have hfile : (scraper_run none now delayHours file0 env).2.1 =
      some (_save_visited_urls (_collect_posts_from_sites env.siteFetch env.sites)) := by
    show (post_scrap env ⟨file0, _load_visited_urls file0⟩).1.visitedFile = _
    unfold post_scrap
    rw [if_neg hne]
  refine ⟨hfile, ?_⟩
  rw [hfile]
  simp only [_load_visited_urls, _save_visited_urls]
  have hmem : ∀ u ∈ Finset.sort (· ≤ ·) (_collect_posts_from_sites env.siteFetch env.sites),
      pyStrip u = u ∧ ¬(u = "") := by
    intro u hu
    exact hclean u ((Finset.mem_sort (α := String) (· ≤ ·)).mp hu)
  rw [map_self_of_mem fun u hu => (hmem u hu).1]
  rw [List.filter_eq_self.mpr fun u hu => by
    simp only [Bool.not_eq_true']
    exact beq_eq_false_iff_ne.mpr (hmem u hu).2]
  exact Finset.sort_toFinset _ _

/-- Witness for c3_replace_nonempty: one site yields the posts P1 and P2,
the prior file held P0; after the run the file holds exactly P1 and P2 and
loads back to that set. -/
theorem c3_witness :
    (scraper_run none 0 48 (some ["P0"])
        ⟨["s1"], fun _ => some {"P1", "P2"}, fun _ => none, fun _ _ => [], []⟩).2.1 =
      some (_save_visited_urls
        (_collect_posts_from_sites (fun _ => some {"P1", "P2"}) ["s1"])) ∧
    _load_visited_urls (scraper_run none 0 48 (some ["P0"])
        ⟨["s1"], fun _ => some {"P1", "P2"}, fun _ => none, fun _ _ => [], []⟩).2.1 =
      _collect_posts_from_sites (fun _ => some {"P1", "P2"}) ["s1"] :=
  c3_replace_nonempty 0 48 (some ["P0"])
    ⟨["s1"], fun _ => some {"P1", "P2"}, fun _ => none, fun _ _ => [], []⟩
    (by decide) (by decide)

/-- C10: a run that collects no posts from any site returns early: the
marker stays absent, the visited file keeps its previous contents, and the
only effects are the site-listing fetches (no post fetch, no link visit,
no visited-file write). -/
theorem c10_empty_collection_frame (now delayHours : Int) (file0 : Option (List String))
    (env : ScraperEnv)
    (h : _collect_posts_from_sites env.siteFetch env.sites = ∅) :
    scraper_run none now delayHours file0 env =
      (none, file0, env.sites.map Effect.fetchSite) := by
  show (none, (post_scrap env ⟨file0, _load_visited_urls file0⟩).1.visitedFile,
    (post_scrap env ⟨file0, _load_visited_urls file0⟩).2) = _
  unfold post_scrap
  rw [if_pos h]

/-- Witness for c10_empty_collection_frame: every site fails, the prior
file with P0 survives the run unchanged. -/
theorem c10_witness :
    scraper_run none 7 48 (some ["P0"])
        ⟨["sA", "sB"], fun _ => none, fun _ => none, fun _ _ => [], []⟩ =
      (none, some ["P0"], [Effect.fetchSite "sA", Effect.fetchSite "sB"]) :=
  c10_empty_collection_frame 7 48 (some ["P0"])
    ⟨["sA", "sB"], fun _ => none, fun _ => none, fun _ _ => [], []⟩ (by decide)

/-- C5: for every raw candidate list and base URL (whose parse succeeds,
as it does for every post URL the program feeds in), the normalizer output
exists and (1) contains a URL exactly when some candidate resolves to it
and the resolved value parses with scheme http or https and a nonempty
host — so malformed candidates are silently dropped, never raised; (2) a
candidate beginning with a double slash resolves by prefixing the https
scheme; (3) a candidate with no scheme resolves by joining it onto the
base origin. -/
theorem c5_normalizer_rules (cands : List String) (base_url : String) (bp : UrlParts)
    (hb : urlparseM base_url "" = some bp) (u : String) :
    ∃ res, _extract_url_candidates cands base_url = some res ∧
      (u ∈ res ↔ ∃ c ∈ cands, resolve_candidate bp.scheme bp.netloc c = some u ∧
        keep_candidate u = true) ∧
      (∀ c, c.startsWith "//" = true →
        resolve_candidate bp.scheme bp.netloc c = some ("https:" ++ c)) ∧
      (∀ c pc, c.startsWith "//" = false → urlparseM c "" = some pc → pc.scheme = "" →
        resolve_candidate bp.scheme bp.netloc c =
          urljoinM (bp.scheme ++ "://" ++ bp.netloc ++ "/") c) := by
  refine ⟨(cands.filterMap (normalize_candidate bp.scheme bp.netloc)).toFinset, ?_, ?_, ?_, ?_⟩
  · unfold _extract_url_candidates
    rw [hb]
  · rw [List.mem_toFinset, List.mem_filterMap]
    constructor
    · rintro ⟨c, hc, hn⟩
      rcases (normalize_candidate_eq_some _ _ _ _).mp hn with ⟨hr, hk⟩
      exact ⟨c, hc, hr, hk⟩
    · rintro ⟨c, hc, hr, hk⟩
      exact ⟨c, hc, (normalize_candidate_eq_some _ _ _ _).mpr ⟨hr, hk⟩⟩
  · intro c hc
    unfold resolve_candidate
    simp [hc]
  · intro c pc hc hpc hscheme
    unfold resolve_candidate
    simp [hc, hpc, hscheme]

/-- Witness for c5_normalizer_rules: base URL of origin https and a.com;
the scheme-relative candidate and a malformed candidate. -/
theorem c5_witness :
    ∃ res, _extract_url_candidates ["//x.com/y", "http://"] "https://a.com/post/1" =
        some res ∧
      ("https://x.com/y" ∈ res ↔ ∃ c ∈ ["//x.com/y", "http://"],
        resolve_candidate "https" "a.com" c = some "https://x.com/y" ∧
        keep_candidate "https://x.com/y" = true) ∧
      (∀ c, c.startsWith "//" = true →
        resolve_candidate "https" "a.com" c = some ("https:" ++ c)) ∧
      (∀ c pc, c.startsWith "//" = false → urlparseM c "" = some pc → pc.scheme = "" →
        resolve_candidate "https" "a.com" c = urljoinM ("https" ++ "://" ++ "a.com" ++ "/") c) :=
  c5_normalizer_rules ["//x.com/y", "http://"] "https://a.com/post/1"
    ⟨"https", "a.com", "/post/1", "", "", ""⟩ (by decide) "https://x.com/y"

/-- C6: on every page (a page with zero scrollable span included), the
total elapsed time of dwell_and_scroll measured from the start of the
readiness wait is at least the minimum-dwell floor; when time remains
before the final sleep, that sleep is exactly the remainder to the floor
plus the jitter, so loading and scrolling time counts against the floor
rather than in addition to it. -/
theorem c6_dwell_floor (minSeconds waitT scrollT jitter : ℚ) (totalH viewH : Int)
    (hw : 0 ≤ waitT) (hs : 0 ≤ scrollT) (hj : 3/10 ≤ jitter) :
    minSeconds ≤ dwell_total_elapsed minSeconds
        (dwell_pre_sleep waitT scrollT (scrollable_height totalH viewH)) jitter ∧
    (0 < minSeconds - dwell_pre_sleep waitT scrollT (scrollable_height totalH viewH) →
      dwell_sleep_time minSeconds
          (dwell_pre_sleep waitT scrollT (scrollable_height totalH viewH)) jitter =
        (minSeconds - dwell_pre_sleep waitT scrollT (scrollable_height totalH viewH)) +
          jitter) := by
  constructor
  · unfold dwell_total_elapsed dwell_sleep_time
    by_cases h : 0 < minSeconds - dwell_pre_sleep waitT scrollT (scrollable_height totalH viewH)
    · rw [if_pos h]
      linarith
    · rw [if_neg h]
      push_neg at h
      linarith
  · intro h
    unfold dwell_sleep_time
    rw [if_pos h]

/-- Witness for c6_dwell_floor: floor of six seconds, one second of
loading, a page with zero scrollable span (height 100, viewport 800),
jitter one half. -/
theorem c6_witness :
    (6 : ℚ) ≤ dwell_total_elapsed 6 (dwell_pre_sleep 1 0 (scrollable_height 100 800)) (1/2) ∧
    (0 < (6 : ℚ) - dwell_pre_sleep 1 0 (scrollable_height 100 800) →
      dwell_sleep_time 6 (dwell_pre_sleep 1 0 (scrollable_height 100 800)) (1/2) =
        (6 - dwell_pre_sleep 1 0 (scrollable_height 100 800)) + 1/2) :=
  c6_dwell_floor 6 1 0 (1/2) 100 800 (by norm_num) (by norm_num) (by norm_num)

/-- C7: a post already in the visited set is skipped by campaign_scrap
without any fetch and contributes nothing: the whole result (campaign-link
set and fetch trace) equals the result on the post list with all visited
posts removed, and every post actually fetched lies outside the visited
set. -/
theorem c7_visited_posts_skipped (visited : Finset String) (pf : String → Option String)
    (rc : String → String → List String) (posts : List String) :
    campaign_scrap_list visited pf rc posts =
      campaign_scrap_list visited pf rc (posts.filter fun p => !decide (p ∈ visited)) ∧
    ((campaign_scrap_list visited pf rc posts).2.all fun q => !decide (q ∈ visited)) = true := by
  constructor
  · exact foldl_campaign_filter visited pf rc posts (∅, [])
  · exact foldl_campaign_trace visited pf rc posts (∅, []) (by simp)

/-- C9: per-item failures are isolated.  A site whose collection raises
changes nothing about the posts collected from the other sites, and a post
whose body fetch raises changes nothing about the campaign links collected
from the other posts; neither failure stops the surrounding loop. -/
theorem c9_per_item_isolation (siteFetch : String → Option (Finset String))
    (sites : List String) (s : String) (hs : siteFetch s = none)
    (visited : Finset String) (pf : String → Option String)
    (rc : String → String → List String) (posts : List String) (p : String)
    (hp : pf p = none) :
    _collect_posts_from_sites siteFetch sites =
      _collect_posts_from_sites siteFetch (sites.filter fun t => !(t == s)) ∧
    (campaign_scrap_list visited pf rc posts).1 =
      (campaign_scrap_list visited pf rc (posts.filter fun q => !(q == p))).1 := by
  constructor
  · exact foldl_collect_drop_failed siteFetch s hs sites ∅
  · exact foldl_campaign_drop_failed visited pf rc p hp posts (∅, [])

/-- Witness for c9_per_item_isolation: the site sBad and the post pBad
fail; the good site and the good post are unaffected. -/
theorem c9_witness :
    _collect_posts_from_sites (fun t => if t == "sBad" then none else some {"P1"})
        ["sGood", "sBad"] =
      _collect_posts_from_sites (fun t => if t == "sBad" then none else some {"P1"})
        (["sGood", "sBad"].filter fun t => !(t == "sBad")) ∧
    (campaign_scrap_list ∅ (fun q => if q == "pBad" then none else some "body")
        (fun _ _ => []) ["pGood", "pBad"]).1 =
      (campaign_scrap_list ∅ (fun q => if q == "pBad" then none else some "body")
        (fun _ _ => []) (["pGood", "pBad"].filter fun q => !(q == "pBad"))).1 :=
  c9_per_item_isolation (fun t => if t == "sBad" then none else some {"P1"})
    ["sGood", "sBad"] "sBad" (by decide) ∅
    (fun q => if q == "pBad" then none else some "body") (fun _ _ => [])
    ["pGood", "pBad"] "pBad" (by decide)
